import Mathlib

/-!
Verification of the core simulation logic of a grid-based snake game
(single source file `App.jsx`).  The React component state
(`snake`, `dir`, `nextDir`, `food`, `score`, `best`, `tickMs`, `paused`,
`gameOver`) is embedded as an explicit `GameState` record, and the
`step` closure is embedded as a pure transition function on it.

Modelling choices:
* Coordinates are `Int` (the computed next head can be `-1` or `24`,
  outside the grid).
* `Math.random`-driven cell generation is abstracted as a stream
  `rng : Nat → Cell` of successive draws; the rejection-sampling loop in
  `placeFood` (which has no iteration cap in the source) is given
  explicit fuel and returns `none` when the fuel runs out, so `step`
  returns `Option GameState` (`none` only models non-termination of
  the food-placement loop on an eating move).
* `tickMs` is an integer number of milliseconds.  `Math.floor(t * 0.98)`
  on a non-negative integer `t` is `⌊98 t / 100⌋`, i.e. `t * 98 / 100`
  in natural-number arithmetic.
* `localStorage` is embedded as a `Store`: the value under the single
  key used by the game (absent at first), plus a counter of `setItem`
  calls so that "no write happens" is expressible.  A stored decimal
  numeral string is represented by its little-endian digit list;
  `String(b)` becomes `jsNatString` and the `Number(...)` parse with
  finiteness check becomes `loadBest`.
-/

/-- Grid cell / direction vector: an integer pair, like the `{x, y}`
objects of the source. -/
structure Cell where
  x : Int
  y : Int
deriving Repr, DecidableEq

/-- Source constant `GRID = 24` (cells per row/col). -/
def GRID : Int := 24

/-- Source constant `BASE_TICK_MS = 120`. -/
def BASE_TICK_MS : Nat := 120

/-- Source constant `MIN_TICK_MS = 55`. -/
def MIN_TICK_MS : Nat := 55

/-- Source `same(a, b)`: componentwise equality of cells. -/
def same (a b : Cell) : Bool :=
  a.x == b.x && a.y == b.y

/-- Source `opposite(a, b)`: `a` is the componentwise negation of `b`. -/
def opposite (a b : Cell) : Bool :=
  a.x == -b.x && a.y == -b.y

/-- Source `makeInitialSnake()`: three cells heading right from the board
centre, head first. -/
def makeInitialSnake : List Cell :=
  let start : Cell := ⟨GRID / 2, GRID / 2⟩
  [⟨start.x, start.y⟩, ⟨start.x - 1, start.y⟩, ⟨start.x - 2, start.y⟩]

/-- Source `placeFood(snake)`: rejection sampling of random cells until one
is not on the snake.  `rng i` is the `i`-th random draw; the source loop has
no iteration cap, so the embedding takes fuel and returns `none` when it is
exhausted. -/
def placeFood (rng : Nat → Cell) : Nat → Nat → List Cell → Option Cell
  | 0, _, _ => none
  | fuel + 1, i, snake =>
    let f := rng i
    if snake.any (fun s => same s f) then placeFood rng fuel (i + 1) snake
    else some f

/-- Embedding of the browser `localStorage` restricted to the single key
`"snake_best_react"`: the stored string (as a little-endian decimal digit
list), `none` when the key is absent, together with a count of `setItem`
calls made so far. -/
structure Store where
  val : Option (List Nat)
  writes : Nat
deriving Repr, DecidableEq

/-- Source `localStorage.setItem(key, v)`: overwrite the stored value and
record that a write happened. -/
def setItem (store : Store) (v : List Nat) : Store :=
  { val := some v, writes := store.writes + 1 }

/-- Source `String(b)` for a natural number `b`, as a little-endian decimal
digit list; `String(0)` is the one-character string `"0"`. -/
def jsNatString (b : Nat) : List Nat :=
  if b = 0 then [0] else Nat.digits 10 b

/-- Source `Number(localStorage.getItem(key) || 0)` followed by the
`Number.isFinite` check with default `0` (lines 62-65): an absent key and
the falsy empty string give `0`; otherwise the decimal numeral is parsed. -/
def loadBest (store : Store) : Nat :=
  match store.val with
  | none => 0
  | some s => if s = [] then 0 else Nat.ofDigits 10 s

/-- Aggregated React component state of the game. -/
structure GameState where
  snake : List Cell
  dir : Cell
  nextDir : Cell
  food : Cell
  score : Nat
  best : Nat
  tickMs : Nat
  paused : Bool
  gameOver : Bool
  store : Store
deriving Repr, DecidableEq

/-- Source `endGame(finalScore)`: set `gameOver`, clear `paused`, and update
`best` to `max(prev, finalScore)`, unconditionally writing the result to
storage. -/
def endGame (finalScore : Nat) (st : GameState) : GameState :=
  let b := max st.best finalScore
  { st with gameOver := true, paused := false, best := b,
            store := setItem st.store (jsNatString b) }

/-- Direction commit of `step` (lines 121-122): the buffered `nextDir`
becomes the applied direction unless it is opposite to the current one. -/
def appliedDir (st : GameState) : Cell :=
  if opposite st.nextDir st.dir then st.dir else st.nextDir

/-- Source `prevSnake[0]` (the head cell). -/
def headCell (st : GameState) : Cell :=
  st.snake.headD ⟨0, 0⟩

/-- Source `{x: head.x + appliedDir.x, y: head.y + appliedDir.y}`. -/
def nextHeadCell (st : GameState) : Cell :=
  ⟨(headCell st).x + (appliedDir st).x, (headCell st).y + (appliedDir st).y⟩

/-- Wall-collision test of `step` (line 130):
`nx < 0 || ny < 0 || nx >= GRID || ny >= GRID`. -/
def outsideGrid (c : Cell) : Bool :=
  decide (c.x < 0) || decide (c.y < 0) || decide (GRID ≤ c.x) || decide (GRID ≤ c.y)

/-- Source `willEat = same(nextHead, food)`. -/
def willEat (st : GameState) : Bool :=
  same (nextHeadCell st) st.food

/-- Source `bodyToCheck = willEat ? prevSnake : prevSnake.slice(0, -1)`:
the snake cells checked for self collision; the tail is excluded exactly
when the move does not eat. -/
def bodyToCheck (st : GameState) : List Cell :=
  if willEat st then st.snake else st.snake.dropLast

/-- Source `step` (lines 116-165) as a pure transition.  `rng`/`fuel` feed
the food-placement loop; the result is `none` only when that loop's fuel
runs out (the source would spin forever).  `setDir(appliedDir)` happens
before the collision checks, so `dir` is committed on every
non-short-circuit path, including the two `endGame` paths. -/
def step (rng : Nat → Cell) (fuel : Nat) (st : GameState) : Option GameState :=
  if st.gameOver || st.paused then some st
  else if outsideGrid (nextHeadCell st) then
    some (endGame st.score { st with dir := appliedDir st })
  else if (bodyToCheck st).any (fun s => same s (nextHeadCell st)) then
    some (endGame st.score { st with dir := appliedDir st })
  else if willEat st then
    match placeFood rng fuel 0 (nextHeadCell st :: st.snake) with
    | none => none
    | some newFood =>
      some { st with dir := appliedDir st,
                     snake := nextHeadCell st :: st.snake,
                     score := st.score + 1,
                     tickMs := max MIN_TICK_MS (st.tickMs * 98 / 100),
                     food := newFood }
  else
    some { st with dir := appliedDir st,
                   snake := (nextHeadCell st :: st.snake).dropLast }

/-- Iterated `step`: `n` consecutive ticks. -/
def stepN (rng : Nat → Cell) (fuel : Nat) : Nat → GameState → Option GameState
  | 0, st => some st
  | n + 1, st => (step rng fuel st).bind (stepN rng fuel n)

/-- Direction branch of the source `onKeyDown` handler (lines 179-183): a
recognised direction intent `d` is discarded when opposite to the current
direction, else it overwrites the pending-direction buffer. -/
def dirKeyDown (st : GameState) (d : Cell) : GameState :=
  if opposite d st.dir then st else { st with nextDir := d }

/-- Tick loop of one scheduler frame as the source runs it (lines 316-319):
`tickMs` is the closure-captured React state value, a `const` for the whole
frame (`setTickMs` inside `step` cannot change it mid-loop), so every
iteration tests and subtracts the same captured interval.  Returns the
number of `step()` invocations and the final accumulator; fuel bounds the
iteration count. -/
def runFrameLoop (tickMs : Nat) : Nat → Nat → Nat × Nat
  | 0, acc => (0, acc)
  | fuel + 1, acc =>
    if tickMs ≤ acc then
      let r := runFrameLoop tickMs fuel (acc - tickMs)
      (r.1 + 1, r.2)
    else (0, acc)

/-- Modelled from the spec: the tick loop as §4.4 describes it, re-reading
the current TickInterval on every iteration, "so that a mid-loop speed-up
from eating takes effect for the remaining iterations of that same frame".
`ticks k` is the TickInterval in effect after `k` steps of the frame. -/
def runFrameLoopReread (ticks : Nat → Nat) : Nat → Nat → Nat → Nat × Nat
  | 0, _, acc => (0, acc)
  | fuel + 1, k, acc =>
    if ticks k ≤ acc then
      let r := runFrameLoopReread ticks fuel (k + 1) (acc - ticks k)
      (r.1 + 1, r.2)
    else (0, acc)

/-- Initial / reset simulation state (source `reset()` and the initial
`useState` values): the placed food `f` and the loaded best score are
parameters. -/
def initState (f : Cell) (b : Nat) (store : Store) : GameState :=
  { snake := makeInitialSnake, dir := ⟨1, 0⟩, nextDir := ⟨1, 0⟩,
    food := f, score := 0, best := b, tickMs := BASE_TICK_MS,
    paused := false, gameOver := false, store := store }

/-! Concrete states used by witnesses and counterexamples. -/

/-- Deterministic draw stream: always propose the corner cell. -/
def rng0 : Nat → Cell := fun _ => ⟨0, 0⟩

/-- Running state one move short of the food, about to eat. -/
def stEat : GameState :=
  { snake := [⟨12, 12⟩, ⟨11, 12⟩, ⟨10, 12⟩], dir := ⟨1, 0⟩, nextDir := ⟨1, 0⟩,
    food := ⟨13, 12⟩, score := 0, best := 0, tickMs := 120,
    paused := false, gameOver := false, store := ⟨none, 0⟩ }

/-- Result of stepping `stEat` with draws `rng0`. -/
def stEatRes : GameState :=
  { snake := [⟨13, 12⟩, ⟨12, 12⟩, ⟨11, 12⟩, ⟨10, 12⟩], dir := ⟨1, 0⟩, nextDir := ⟨1, 0⟩,
    food := ⟨0, 0⟩, score := 1, best := 0, tickMs := 117,
    paused := false, gameOver := false, store := ⟨none, 0⟩ }

/-- Running state whose head `(23,12)` moving `(1,0)` is about to hit the
right wall. -/
def stWall : GameState :=
  { snake := [⟨23, 12⟩, ⟨22, 12⟩, ⟨21, 12⟩], dir := ⟨1, 0⟩, nextDir := ⟨1, 0⟩,
    food := ⟨5, 5⟩, score := 2, best := 0, tickMs := 120,
    paused := false, gameOver := false, store := ⟨none, 0⟩ }

/-- Running state about to hit the wall while its score 5 is below the
stored best 7. -/
def stNoImprove : GameState :=
  { snake := [⟨23, 12⟩, ⟨22, 12⟩, ⟨21, 12⟩], dir := ⟨1, 0⟩, nextDir := ⟨1, 0⟩,
    food := ⟨5, 5⟩, score := 5, best := 7, tickMs := 120,
    paused := false, gameOver := false, store := ⟨some [7], 3⟩ }

/-- Running state whose non-eating move lands exactly on the current tail
cell `(0,0)` (the snake is bent into a 2×2 loop). -/
def stTail : GameState :=
  { snake := [⟨1, 0⟩, ⟨1, 1⟩, ⟨0, 1⟩, ⟨0, 0⟩], dir := ⟨-1, 0⟩, nextDir := ⟨-1, 0⟩,
    food := ⟨5, 5⟩, score := 0, best := 0, tickMs := 120,
    paused := false, gameOver := false, store := ⟨none, 0⟩ }

/-- Result of stepping `stTail`: the head takes the vacated tail cell. -/
def stTailRes : GameState :=
  { snake := [⟨0, 0⟩, ⟨1, 0⟩, ⟨1, 1⟩, ⟨0, 1⟩], dir := ⟨-1, 0⟩, nextDir := ⟨-1, 0⟩,
    food := ⟨5, 5⟩, score := 0, best := 0, tickMs := 120,
    paused := false, gameOver := false, store := ⟨none, 0⟩ }

/-- Speed-up schedule with one eat on the first tick of the frame:
120 ms before it, 117 ms from then on. -/
def fC7 : Nat → Nat := fun k => if k = 0 then 120 else 117

/-- Soundness of the rejection-sampling loop: a returned cell is on none of
the occupied cells. -/
theorem placeFood_sound (rng : Nat → Cell) :
    ∀ (fuel i : Nat) (snake : List Cell) (f : Cell),
      placeFood rng fuel i snake = some f →
      snake.any (fun s => same s f) = false := by
  intro fuel
  induction fuel with
  | zero => intro i snake f h; simp [placeFood] at h
  | succ n ih =>
    intro i snake f h
    unfold placeFood at h
    cases hc : snake.any (fun s => same s (rng i)) with
    | true => simp only [hc, if_true] at h; exact ih (i + 1) snake f h
    | false =>
      simp only [hc, Bool.false_eq_true, if_false, Option.some.injEq] at h
      rw [← h]
      exact hc

/-- C8: `step` is idempotent while Paused or GameOver — any number of
repeated invocations (so in particular one or more) leave the state
bit-for-bit unchanged. -/
theorem stepN_frozen_when_paused_or_over (rng : Nat → Cell) (fuel n : Nat)
    (st : GameState) (h : st.paused = true ∨ st.gameOver = true) :
    stepN rng fuel n st = some st := by
  have hs : step rng fuel st = some st := by
    unfold step
    rcases h with h | h <;> simp [h]
  induction n with
  | zero => rfl
  | succ n ih =>
    unfold stepN
    rw [hs]
    exact ih

/-- Witness for C8 at a concrete paused state and three repetitions. -/
theorem stepN_frozen_when_paused_or_over_witness :
    stepN rng0 1 3 { stEat with paused := true } = some { stEat with paused := true } :=
  stepN_frozen_when_paused_or_over rng0 1 3 { stEat with paused := true } (Or.inl rfl)

/-- C3: when the head moved by the committed direction lands out of the
24×24 bounds, one `step` sets `gameOver` and leaves snake, food and score
at their pre-step values. -/
theorem step_wall_collision_freezes (rng : Nat → Cell) (fuel : Nat)
    (st : GameState) (hg : st.gameOver = false) (hp : st.paused = false)
    (hout : outsideGrid (nextHeadCell st) = true) :
    step rng fuel st = some (endGame st.score { st with dir := appliedDir st }) ∧
    (endGame st.score { st with dir := appliedDir st }).gameOver = true ∧
    (endGame st.score { st with dir := appliedDir st }).snake = st.snake ∧
    (endGame st.score { st with dir := appliedDir st }).food = st.food ∧
    (endGame st.score { st with dir := appliedDir st }).score = st.score := by
  refine ⟨?_, rfl, rfl, rfl, rfl⟩
  unfold step
  simp [hg, hp, hout]

/-- Witness for C3 at the spec's scenario: head `(23,12)` moving `(1,0)`. -/
theorem step_wall_collision_freezes_witness :
    step rng0 1 stWall =
      some (endGame stWall.score { stWall with dir := appliedDir stWall }) ∧
    (endGame stWall.score { stWall with dir := appliedDir stWall }).gameOver = true ∧
    (endGame stWall.score { stWall with dir := appliedDir stWall }).snake = stWall.snake ∧
    (endGame stWall.score { stWall with dir := appliedDir stWall }).food = stWall.food ∧
    (endGame stWall.score { stWall with dir := appliedDir stWall }).score = stWall.score :=
  step_wall_collision_freezes rng0 1 stWall rfl rfl (by decide)

/-- C10: round-trip of the best-score persistence — saving a natural
number through the `String` conversion and re-loading it through the
`Number` parse returns exactly that number. -/
theorem loadBest_setItem_roundtrip (store : Store) (n : Nat) :
    loadBest (setItem store (jsNatString n)) = n := by
  unfold loadBest setItem jsNatString
  by_cases hn : n = 0
  · subst hn
    simp [Nat.ofDigits]
  · simp only [hn, if_false]
    rw [if_neg (Nat.digits_ne_nil_iff_ne_zero.mpr hn)]
    exact Nat.ofDigits_digits 10 n

/-- C9 (amended): `endGame` writes `max(stored best, final score)` back to
storage on every game-over transition — also when the score does not beat
the best — and the best value is monotonically non-decreasing. -/
theorem endGame_always_writes_max (finalScore : Nat) (st : GameState) :
    (endGame finalScore st).store.writes = st.store.writes + 1 ∧
    (endGame finalScore st).store.val = some (jsNatString (max st.best finalScore)) ∧
    (endGame finalScore st).best = max st.best finalScore ∧
    st.best ≤ (endGame finalScore st).best :=
  ⟨rfl, rfl, rfl, le_max_left _ _⟩

/-- C9 counterexample: a game ending with Score 5 ≤ stored best 7 still
performs a storage write (the `setItem` call count goes up by one). -/
theorem endGame_write_without_improvement :
    stNoImprove.score ≤ stNoImprove.best ∧
    stNoImprove.gameOver = false ∧
    (step rng0 1 stNoImprove).map (fun s => (s.gameOver, s.store.writes)) =
      some (true, stNoImprove.store.writes + 1) := by
  refine ⟨by decide, rfl, by decide⟩

/-- C1 (amended): an eating step adds exactly 1 to the score and sets the
tick interval to `max MIN_TICK_MS ⌊0.98 · previous⌋`, which never goes
below the 55 ms floor. -/
theorem step_eat_score_and_tick (rng : Nat → Cell) (fuel : Nat)
    (st st' : GameState)
    (hg : st.gameOver = false) (hp : st.paused = false)
    (hout : outsideGrid (nextHeadCell st) = false)
    (heat : willEat st = true)
    (hcol : (bodyToCheck st).any (fun s => same s (nextHeadCell st)) = false)
    (hstep : step rng fuel st = some st') :
    st'.score = st.score + 1 ∧
    st'.tickMs = max MIN_TICK_MS (st.tickMs * 98 / 100) ∧
    MIN_TICK_MS ≤ st'.tickMs := by
  unfold step at hstep
  simp only [hg, hp, hout, hcol, heat, Bool.or_self, Bool.false_eq_true,
    if_false, if_true] at hstep
  cases hpf : placeFood rng fuel 0 (nextHeadCell st :: st.snake) with
  | none => rw [hpf] at hstep; cases hstep
  | some nf =>
    rw [hpf] at hstep
    injection hstep with h
    refine ⟨by rw [← h], by rw [← h], ?_⟩
    rw [← h]
    exact le_max_left _ _

/-- Witness for C1's amended theorem at the concrete eating state `stEat`
(tick 120 → 117). -/
theorem step_eat_score_and_tick_witness :
    stEatRes.score = stEat.score + 1 ∧
    stEatRes.tickMs = max MIN_TICK_MS (stEat.tickMs * 98 / 100) ∧
    MIN_TICK_MS ≤ stEatRes.tickMs :=
  step_eat_score_and_tick rng0 1 stEat stEatRes rfl rfl (by decide) (by decide)
    (by decide) (by decide)

/-- C1 counterexample: at tick 120 the eating step produces 117 ms, not the
exact `max(55, 0.98 × 120) = 117.6` the claim states — `Math.floor`
truncates to whole milliseconds. -/
theorem step_eat_tick_not_exact_scaling :
    (step rng0 1 stEat).map (fun s => (s.tickMs : ℚ)) ≠
      some (max 55 (98 / 100 * (stEat.tickMs : ℚ))) := by
  have h : (step rng0 1 stEat).map (fun s => (s.tickMs : ℚ)) = some ((117 : Nat) : ℚ) := by
    rw [show step rng0 1 stEat = some stEatRes from by decide]
    rfl
  rw [h]
  intro hSome
  injection hSome with hEq
  rw [show ((stEat.tickMs : Nat) : ℚ) = (120 : ℚ) from by norm_num [stEat]] at hEq
  rw [show max (55 : ℚ) (98 / 100 * 120) = 588 / 5 from by norm_num] at hEq
  norm_num at hEq

/-- C4: when an eating step goes through (no collision, so the game is not
over), the newly placed food lies on none of the cells of the grown
snake. -/
theorem step_eat_food_off_snake (rng : Nat → Cell) (fuel : Nat)
    (st st' : GameState)
    (hg : st.gameOver = false) (hp : st.paused = false)
    (heat : willEat st = true)
    (hstep : step rng fuel st = some st')
    (hover : st'.gameOver = false) :
    st'.snake.any (fun s => same s st'.food) = false := by
  unfold step at hstep
  simp only [hg, hp, Bool.or_self, Bool.false_eq_true, if_false] at hstep
  by_cases hout : outsideGrid (nextHeadCell st) = true
  · rw [if_pos hout] at hstep
    injection hstep with h
    rw [← h] at hover
    cases hover
  · rw [if_neg hout] at hstep
    by_cases hcol : (bodyToCheck st).any (fun s => same s (nextHeadCell st)) = true
    · rw [if_pos hcol] at hstep
      injection hstep with h
      rw [← h] at hover
      cases hover
    · rw [if_neg hcol, if_pos heat] at hstep
      cases hpf : placeFood rng fuel 0 (nextHeadCell st :: st.snake) with
      | none => rw [hpf] at hstep; cases hstep
      | some nf =>
        rw [hpf] at hstep
        injection hstep with h
        rw [← h]
        exact placeFood_sound rng fuel 0 (nextHeadCell st :: st.snake) nf hpf

/-- Witness for C4 at the concrete eating state `stEat`: the new food
`(0,0)` is not on the grown snake. -/
theorem step_eat_food_off_snake_witness :
    stEatRes.snake.any (fun s => same s stEatRes.food) = false :=
  step_eat_food_off_snake rng0 1 stEat stEatRes rfl rfl (by decide) (by decide) rfl

/-- C2: given an in-bounds move, the step ends the game exactly when
`nextHead` hits the checked body segment — the full snake when eating, the
snake minus its tail otherwise — and in particular a non-eating move onto
(only) the current tail cell never ends the game. -/
theorem step_self_collision_check (rng : Nat → Cell) (fuel : Nat)
    (st st' : GameState)
    (hg : st.gameOver = false) (hp : st.paused = false)
    (hout : outsideGrid (nextHeadCell st) = false)
    (hstep : step rng fuel st = some st') :
    (st'.gameOver = true ↔ (bodyToCheck st).any (fun s => same s (nextHeadCell st)) = true) ∧
    (willEat st = false →
      same (nextHeadCell st) (st.snake.getLastD ⟨0, 0⟩) = true →
      (st.snake.dropLast).any (fun s => same s (nextHeadCell st)) = false →
      st'.gameOver = false) := by
  unfold step at hstep
  simp only [hg, hp, hout, Bool.or_self, Bool.false_eq_true, if_false] at hstep
  by_cases hcol : (bodyToCheck st).any (fun s => same s (nextHeadCell st)) = true
  · rw [if_pos hcol] at hstep
    injection hstep with h
    constructor
    · rw [← h]
      simp [endGame, hcol]
    · intro hwe _ hdrop
      exfalso
      unfold bodyToCheck at hcol
      rw [hwe] at hcol
      simp only [Bool.false_eq_true, if_false] at hcol
      rw [hdrop] at hcol
      cases hcol
  · rw [if_neg hcol] at hstep
    have hgo : st'.gameOver = false := by
      by_cases hwe : willEat st = true
      · rw [if_pos hwe] at hstep
        cases hpf : placeFood rng fuel 0 (nextHeadCell st :: st.snake) with
        | none => rw [hpf] at hstep; cases hstep
        | some nf => rw [hpf] at hstep; injection hstep with h; rw [← h]
      · rw [if_neg hwe] at hstep
        injection hstep with h
        rw [← h]
    refine ⟨?_, fun _ _ _ => hgo⟩
    rw [hgo]
    simp [hcol]

/-- Witness for C2 at `stTail`: moving onto the outgoing tail cell is legal
and does not end the game. -/
theorem step_self_collision_check_witness :
    (stTailRes.gameOver = true ↔
      (bodyToCheck stTail).any (fun s => same s (nextHeadCell stTail)) = true) ∧
    (willEat stTail = false →
      same (nextHeadCell stTail) (stTail.snake.getLastD ⟨0, 0⟩) = true →
      (stTail.snake.dropLast).any (fun s => same s (nextHeadCell stTail)) = false →
      stTailRes.gameOver = false) :=
  step_self_collision_check rng0 1 stTail stTailRes rfl rfl (by decide) (by decide)

/-- C5: from the initial snake `[(12,12),(11,12),(10,12)]` heading `(1,0)`,
one step with no food at `(13,12)` yields `[(13,12),(12,12),(11,12)]` with
the score unchanged. -/
theorem step_initial_scenario (rng : Nat → Cell) (fuel : Nat)
    (f : Cell) (b : Nat) (store : Store)
    (hf : same ⟨13, 12⟩ f = false) :
    step rng fuel (initState f b store) =
      some { initState f b store with snake := [⟨13, 12⟩, ⟨12, 12⟩, ⟨11, 12⟩] } ∧
    ({ initState f b store with
        snake := [⟨13, 12⟩, ⟨12, 12⟩, ⟨11, 12⟩] } : GameState).score =
      (initState f b store).score := by
  have hwe : willEat (initState f b store) = false := hf
  refine ⟨?_, rfl⟩
  unfold step
  rw [if_neg (fun hc => Bool.false_ne_true hc :
        ¬ ((initState f b store).gameOver || (initState f b store).paused) = true)]
  rw [if_neg (fun hc => Bool.false_ne_true hc :
        ¬ outsideGrid (nextHeadCell (initState f b store)) = true)]
  rw [show bodyToCheck (initState f b store) = (initState f b store).snake.dropLast
        from by unfold bodyToCheck; rw [hwe]; simp]
  rw [if_neg (fun hc => Bool.false_ne_true hc :
        ¬ ((initState f b store).snake.dropLast).any
            (fun s => same s (nextHeadCell (initState f b store))) = true)]
  rw [if_neg (by rw [hwe]; simp : ¬ willEat (initState f b store) = true)]
  rfl

/-- Witness for C5 with the food placed at `(0,0)`. -/
theorem step_initial_scenario_witness :
    step rng0 1 (initState ⟨0, 0⟩ 0 ⟨none, 0⟩) =
      some { initState ⟨0, 0⟩ 0 ⟨none, 0⟩ with
              snake := [⟨13, 12⟩, ⟨12, 12⟩, ⟨11, 12⟩] } ∧
    ({ initState ⟨0, 0⟩ 0 ⟨none, 0⟩ with
        snake := [⟨13, 12⟩, ⟨12, 12⟩, ⟨11, 12⟩] } : GameState).score =
      (initState ⟨0, 0⟩ 0 ⟨none, 0⟩).score :=
  step_initial_scenario rng0 1 ⟨0, 0⟩ 0 ⟨none, 0⟩ (by decide)

/-- Direction of the state after a step: either the short-circuit left it
alone or the committed direction was applied. -/
theorem step_dir_cases (rng : Nat → Cell) (fuel : Nat) (st st' : GameState)
    (hstep : step rng fuel st = some st') :
    st'.dir = st.dir ∨ st'.dir = appliedDir st := by
  unfold step at hstep
  by_cases h1 : (st.gameOver || st.paused) = true
  · rw [if_pos h1] at hstep
    injection hstep with h
    left
    rw [← h]
  · rw [if_neg h1] at hstep
    by_cases h2 : outsideGrid (nextHeadCell st) = true
    · rw [if_pos h2] at hstep
      injection hstep with h
      right
      rw [← h]
      rfl
    · rw [if_neg h2] at hstep
      by_cases h3 : (bodyToCheck st).any (fun s => same s (nextHeadCell st)) = true
      · rw [if_pos h3] at hstep
        injection hstep with h
        right
        rw [← h]
        rfl
      · rw [if_neg h3] at hstep
        by_cases h4 : willEat st = true
        · rw [if_pos h4] at hstep
          cases hpf : placeFood rng fuel 0 (nextHeadCell st :: st.snake) with
          | none => rw [hpf] at hstep; cases hstep
          | some nf =>
            rw [hpf] at hstep
            injection hstep with h
            right
            rw [← h]
        · rw [if_neg h4] at hstep
          injection hstep with h
          right
          rw [← h]

/-- C6: while moving right, feeding the opposite intent `(-1,0)` to the key
handler and then stepping never commits leftward movement: the reversal is
dropped at buffering, and any stale buffered reversal is dropped again at
commit. -/
theorem reversal_intent_never_moves_left (rng : Nat → Cell) (fuel : Nat)
    (st st' : GameState)
    (hdir : st.dir = ⟨1, 0⟩)
    (hstep : step rng fuel (dirKeyDown st ⟨-1, 0⟩) = some st') :
    st'.dir ≠ ⟨-1, 0⟩ := by
  have hkd : dirKeyDown st ⟨-1, 0⟩ = st := by
    unfold dirKeyDown
    rw [if_pos (by rw [hdir]; decide : opposite ⟨-1, 0⟩ st.dir = true)]
  rw [hkd] at hstep
  rcases step_dir_cases rng fuel st st' hstep with h | h
  · rw [h, hdir]
    decide
  · rw [h]
    unfold appliedDir
    by_cases hop : opposite st.nextDir st.dir = true
    · rw [if_pos hop, hdir]
      decide
    · rw [if_neg hop]
      intro hEq
      apply hop
      rw [hEq, hdir]
      decide

/-- Witness for C6 at `stEat` (which heads right): the post-step direction
is not `(-1,0)`. -/
theorem reversal_intent_never_moves_left_witness : stEatRes.dir ≠ ⟨-1, 0⟩ :=
  reversal_intent_never_moves_left rng0 1 stEat stEatRes rfl (by decide)

/-- C7 (amended): within one scheduler frame the loop tests and subtracts
the closure-captured TickInterval on every iteration, so with captured
interval `t > 0` and accumulator `acc` it runs exactly `⌊acc / t⌋` ticks
and leaves `acc % t` banked, regardless of any mid-loop `setTickMs`. -/
theorem runFrameLoop_uses_captured_interval (t fuel acc : Nat)
    (ht : 0 < t) (hfuel : acc / t ≤ fuel) :
    runFrameLoop t fuel acc = (acc / t, acc % t) := by
  induction fuel generalizing acc with
  | zero =>
    have h0 : acc / t = 0 := Nat.le_zero.mp hfuel
    have hlt : acc < t := by
      by_contra hge
      have h1 : 1 ≤ acc / t := (Nat.one_le_div_iff ht).mpr (Nat.le_of_not_lt hge)
      omega
    unfold runFrameLoop
    rw [h0, Nat.mod_eq_of_lt hlt]
  | succ n ih =>
    unfold runFrameLoop
    by_cases hle : t ≤ acc
    · rw [if_pos hle]
      have hdiv : acc / t = (acc - t) / t + 1 := Nat.div_eq_sub_div ht hle
      have hmod : acc % t = (acc - t) % t := Nat.mod_eq_sub_mod hle
      have hf' : (acc - t) / t ≤ n := by omega
      simp only [ih (acc - t) hf']
      rw [hdiv, hmod]
    · rw [if_neg hle]
      have hlt : acc < t := Nat.lt_of_not_le hle
      rw [Nat.div_eq_of_lt hlt, Nat.mod_eq_of_lt hlt]

/-- Witness for C7's amended theorem: captured interval 120 ms and a 237 ms
accumulator give exactly one tick. -/
theorem runFrameLoop_uses_captured_interval_witness :
    runFrameLoop 120 10 237 = (237 / 120, 237 % 120) :=
  runFrameLoop_uses_captured_interval 120 10 237 (by decide) (by decide)

/-- C7 counterexample: with a 237 ms accumulator and an eat on the first
tick (120 ms → 117 ms, exactly the source speed-up), the source loop runs
1 tick because it keeps using the captured 120 ms, while the spec's
re-reading loop would run 2 — the mid-loop speed-up does not take effect
within the frame. -/
theorem runFrameLoop_counterexample_reread :
    fC7 1 = max MIN_TICK_MS (fC7 0 * 98 / 100) ∧
    runFrameLoop (fC7 0) 10 237 = (1, 117) ∧
    runFrameLoopReread fC7 10 0 237 = (2, 0) ∧
    runFrameLoop (fC7 0) 10 237 ≠ runFrameLoopReread fC7 10 0 237 := by
  decide
